import Mathlib

/-
Verification of the yt unit-equivalency engine against its specification.

The engine itself (dimension model, physical-constants table, equivalency
registry, conversion engine, introspection API) is documented in
`doc/source/analyzing/units/6)_Unit_Equivalencies.ipynb`; the executable
implementation lives outside this tree, so every definition below is a
model built from the specification's own words and formulas.

Numeric values are modelled over the real numbers; dimension exponents are
exact rationals (cgs electromagnetic dimensions need half-integer
exponents).  Base units for the exponent vector are gram, centimeter,
second, kelvin and ampere: a unit's `factor` is its size expressed in that
base, and a transform maps a value in base units of its source dimension
to a value in base units of its target dimension.
-/

namespace Yt

noncomputable section

/-- Modelled from the spec: a physical dimension is an immutable exponent
vector over the base dimensions; two dimensions are equal iff all
exponents match exactly.  (The implementation's dimension model is not in
this tree.)  Electromagnetic cgs dimensions require rational exponents. -/
structure Dimension where
  mass : ℚ
  length : ℚ
  time : ℚ
  temperature : ℚ
  current : ℚ
  deriving DecidableEq

/-- Dimensions compose under multiplication by exponent addition. -/
def Dimension.mul (a b : Dimension) : Dimension :=
  ⟨a.mass + b.mass, a.length + b.length, a.time + b.time,
   a.temperature + b.temperature, a.current + b.current⟩

/-- Dimensions compose under division by exponent subtraction. -/
def Dimension.div (a b : Dimension) : Dimension :=
  ⟨a.mass - b.mass, a.length - b.length, a.time - b.time,
   a.temperature - b.temperature, a.current - b.current⟩

/-- Dimensions compose under exponentiation by exponent scaling. -/
def Dimension.qpow (a : Dimension) (r : ℚ) : Dimension :=
  ⟨a.mass * r, a.length * r, a.time * r, a.temperature * r, a.current * r⟩

def dimensionless : Dimension := ⟨0, 0, 0, 0, 0⟩
def dMass : Dimension := ⟨1, 0, 0, 0, 0⟩
def dLength : Dimension := ⟨0, 1, 0, 0, 0⟩
def dTime : Dimension := ⟨0, 0, 1, 0, 0⟩
def dTemperature : Dimension := ⟨0, 0, 0, 1, 0⟩
def dVelocity : Dimension := ⟨0, 1, -1, 0, 0⟩
def dEnergy : Dimension := ⟨1, 2, -2, 0, 0⟩
def dRate : Dimension := ⟨0, 0, -1, 0, 0⟩
def dDensity : Dimension := ⟨1, -3, 0, 0, 0⟩
def dNumberDensity : Dimension := ⟨0, -3, 0, 0, 0⟩
def dPower : Dimension := ⟨1, 2, -3, 0, 0⟩
def dCurrentMks : Dimension := ⟨0, 0, 0, 0, 1⟩
def dChargeMks : Dimension := ⟨0, 0, 1, 0, 1⟩
def dMagneticMks : Dimension := ⟨1, 0, -2, 0, -1⟩
def dPotentialMks : Dimension := ⟨1, 2, -3, 0, -1⟩
def dResistanceMks : Dimension := ⟨1, 2, -3, 0, -2⟩
def dChargeCgs : Dimension := ⟨1/2, 3/2, -1, 0, 0⟩
def dCurrentCgs : Dimension := ⟨1/2, 3/2, -2, 0, 0⟩
def dMagneticCgs : Dimension := ⟨1/2, -1/2, -1, 0, 0⟩
def dPotentialCgs : Dimension := ⟨1/2, 1/2, -1, 0, 0⟩
def dResistanceCgs : Dimension := ⟨0, -1, 1, 0, 0⟩

/-- Modelled from the spec: Boltzmann constant, in erg/K. -/
def kB : ℝ := 1380649 / 10 ^ 22

/-- Modelled from the spec: Planck constant, in erg s. -/
def hP : ℝ := 662607015 / 10 ^ 35

/-- Modelled from the spec: speed of light, in cm/s. -/
def cR : ℝ := 29979245800

/-- Modelled from the spec: gravitational constant, in cm^3/(g s^2). -/
def gG : ℝ := 66743 / 10 ^ 12

/-- Modelled from the spec: proton mass, in g. -/
def mP : ℝ := 167262192369 / 10 ^ 35

/-- One electron-volt expressed in erg. -/
def eVerg : ℝ := 1602176634 / 10 ^ 21

def dimKB : Dimension := dEnergy.div dTemperature
def dimH : Dimension := dEnergy.mul dTime
def dimC : Dimension := dVelocity
def dimG : Dimension := (dLength.qpow 3).div (dMass.mul (dTime.qpow 2))
def dimMP : Dimension := dMass

/-- Modelled from the spec: caller-supplied optional equivalency
parameters; `none` means the parameter was omitted. -/
structure ParamInput where
  mu : Option ℝ
  gamma : Option ℝ

/-- Merged (effective) equivalency parameters. -/
structure Params where
  mu : ℝ
  gamma : ℝ

/-- Modelled from the spec: merge caller-supplied parameters over the
documented defaults mu = 0.6 and gamma = 5/3. -/
def mergeParams (ps : ParamInput) : Params :=
  ⟨ps.mu.getD (3/5), ps.gamma.getD (5/3)⟩

/-- The empty parameter input: every parameter omitted. -/
def pnone : ParamInput := ⟨none, none⟩

/-- Modelled from the spec: forward "lorentz" transform,
gamma = 1/sqrt(1 - (v/c)^2), on a velocity in base units. -/
def lorentz_fwd (v : ℝ) : ℝ := 1 / Real.sqrt (1 - (v / cR) ^ 2)

/-- Modelled from the spec: inverse "lorentz" transform,
v = c sqrt(1 - 1/gamma^2). -/
def lorentz_inv (g : ℝ) : ℝ := cR * Real.sqrt (1 - 1 / g ^ 2)

/-- Guarded form of the forward "lorentz" transform: the error branch is
taken exactly when 1 - (v/c)^2 is not strictly positive, i.e. when the
square root of a non-positive number or a division by zero would occur. -/
def lorentz_fwd_checked (v : ℝ) : Except String ℝ :=
  if 0 < 1 - (v / cR) ^ 2 then .ok (lorentz_fwd v) else .error "math domain error"

/-- Modelled from the spec: one directed applicable dimension pair of an
equivalency, with the transform for that direction.  `outDim` is the
dimension of the transform's output as derived from its defining formula
and the dimensions of the physical constants it uses. -/
structure EquivEntry where
  src : Dimension
  tgt : Dimension
  outDim : Dimension
  fwd : Params → ℝ → ℝ

/-- Modelled from the spec: whether an equivalency supports both
directions or only one. -/
inductive Directionality where
  | bidirectional
  | oneWay
  deriving DecidableEq

/-- Modelled from the spec: a named equivalency with its directed
applicable dimension pairs.  For a bidirectional equivalency both
directions are listed, each with its own transform; for a one-way
equivalency only the supported direction is listed (no inverse is
auto-derived). -/
structure Equivalency where
  name : String
  directionality : Directionality
  entries : List EquivEntry

def thT2E : EquivEntry := ⟨dTemperature, dEnergy, dimKB.mul dTemperature, fun _ v => kB * v⟩
def thE2T : EquivEntry := ⟨dEnergy, dTemperature, dEnergy.div dimKB, fun _ v => v / kB⟩

/-- Modelled from the spec: "thermal", temperature <-> energy, E = kB T. -/
def thermalEquiv : Equivalency := ⟨"thermal", .bidirectional, [thT2E, thE2T]⟩

def spL2F : EquivEntry := ⟨dLength, dRate, dimC.div dLength, fun _ v => cR / v⟩
def spF2L : EquivEntry := ⟨dRate, dLength, dimC.div dRate, fun _ v => cR / v⟩
def spL2E : EquivEntry := ⟨dLength, dEnergy, (dimH.mul dimC).div dLength, fun _ v => hP * cR / v⟩
def spE2L : EquivEntry := ⟨dEnergy, dLength, (dimH.mul dimC).div dEnergy, fun _ v => hP * cR / v⟩
def spF2E : EquivEntry := ⟨dRate, dEnergy, dimH.mul dRate, fun _ v => hP * v⟩
def spE2F : EquivEntry := ⟨dEnergy, dRate, dEnergy.div dimH, fun _ v => v / hP⟩

/-- Modelled from the spec: "spectral", wavelength/frequency/energy for
photons, E = h nu = h c / lambda, c = lambda nu. -/
def spectralEquiv : Equivalency :=
  ⟨"spectral", .bidirectional, [spL2F, spF2L, spL2E, spE2L, spF2E, spE2F]⟩

def meM2E : EquivEntry := ⟨dMass, dEnergy, dMass.mul (dimC.qpow 2), fun _ v => v * cR ^ 2⟩
def meE2M : EquivEntry := ⟨dEnergy, dMass, dEnergy.div (dimC.qpow 2), fun _ v => v / cR ^ 2⟩

/-- Modelled from the spec: "mass_energy", mass <-> energy, E = m c^2. -/
def massEnergyEquiv : Equivalency := ⟨"mass_energy", .bidirectional, [meM2E, meE2M]⟩

def loV2G : EquivEntry := ⟨dVelocity, dimensionless, dVelocity.div dimC, fun _ v => lorentz_fwd v⟩
def loG2V : EquivEntry := ⟨dimensionless, dVelocity, dimC, fun _ v => lorentz_inv v⟩

/-- Modelled from the spec: "lorentz", velocity <-> Lorentz factor. -/
def lorentzEquiv : Equivalency := ⟨"lorentz", .bidirectional, [loV2G, loG2V]⟩

def scM2R : EquivEntry :=
  ⟨dMass, dLength, (dimG.mul dMass).div (dimC.qpow 2), fun _ v => 2 * gG * v / cR ^ 2⟩
def scR2M : EquivEntry :=
  ⟨dLength, dMass, (dLength.mul (dimC.qpow 2)).div dimG, fun _ v => v * cR ^ 2 / (2 * gG)⟩

/-- Modelled from the spec: "schwarzschild", mass <-> radius, R = 2GM/c^2. -/
def schwarzschildEquiv : Equivalency := ⟨"schwarzschild", .bidirectional, [scM2R, scR2M]⟩

def cpM2L : EquivEntry :=
  ⟨dMass, dLength, dimH.div (dMass.mul dimC), fun _ v => hP / (v * cR)⟩
def cpL2M : EquivEntry :=
  ⟨dLength, dMass, dimH.div (dLength.mul dimC), fun _ v => hP / (v * cR)⟩

/-- Modelled from the spec: "compton", mass <-> wavelength, lambda = h/(m c). -/
def comptonEquiv : Equivalency := ⟨"compton", .bidirectional, [cpM2L, cpL2M]⟩

def ndD2N : EquivEntry :=
  ⟨dDensity, dNumberDensity, dDensity.div dimMP, fun p v => v / (p.mu * mP)⟩
def ndN2D : EquivEntry :=
  ⟨dNumberDensity, dDensity, dNumberDensity.mul dimMP, fun p v => v * (p.mu * mP)⟩

/-- Modelled from the spec: "number_density", density <-> number density,
n = rho / (mu m_p), with optional parameter mu (default 0.6). -/
def numberDensityEquiv : Equivalency := ⟨"number_density", .bidirectional, [ndD2N, ndN2D]⟩

def ssT2V : EquivEntry :=
  ⟨dTemperature, dVelocity, ((dimKB.mul dTemperature).div dimMP).qpow (1/2),
   fun p v => Real.sqrt (p.gamma * kB * v / (p.mu * mP))⟩
def ssV2T : EquivEntry :=
  ⟨dVelocity, dTemperature, (dimMP.mul (dVelocity.qpow 2)).div dimKB,
   fun p v => p.mu * mP * v ^ 2 / (p.gamma * kB)⟩

/-- Modelled from the spec: "sound_speed", temperature <-> velocity for an
ideal gas, c_s^2 = gamma kB T / (mu m_p), with optional parameters gamma
(default 5/3) and mu (default 0.6). -/
def soundSpeedEquiv : Equivalency := ⟨"sound_speed", .bidirectional, [ssT2V, ssV2T]⟩

def siCharge : EquivEntry := ⟨dChargeCgs, dChargeMks, dChargeMks, fun _ v => v * 10 / cR⟩
def siCurrent : EquivEntry := ⟨dCurrentCgs, dCurrentMks, dCurrentMks, fun _ v => v * 10 / cR⟩
def siMagnetic : EquivEntry := ⟨dMagneticCgs, dMagneticMks, dMagneticMks, fun _ v => v / 10⟩
def siPotential : EquivEntry := ⟨dPotentialCgs, dPotentialMks, dPotentialMks, fun _ v => v * cR / 10⟩
def siResistance : EquivEntry :=
  ⟨dResistanceCgs, dResistanceMks, dResistanceMks, fun _ v => v * cR ^ 2 / 100⟩

/-- Modelled from the spec: "SI", the one-way cgs -> SI electromagnetic
equivalency (charge, current, magnetic field, electric potential,
resistance), each with its own scale-factor rule from the defining
relations of the two unit systems.  No inverse is auto-derived. -/
def siEquiv : Equivalency := ⟨"SI", .oneWay, [siCharge, siCurrent, siMagnetic, siPotential, siResistance]⟩

def cgsCharge : EquivEntry := ⟨dChargeMks, dChargeCgs, dChargeCgs, fun _ v => v * cR / 10⟩
def cgsCurrent : EquivEntry := ⟨dCurrentMks, dCurrentCgs, dCurrentCgs, fun _ v => v * cR / 10⟩
def cgsMagnetic : EquivEntry := ⟨dMagneticMks, dMagneticCgs, dMagneticCgs, fun _ v => v * 10⟩
def cgsPotential : EquivEntry := ⟨dPotentialMks, dPotentialCgs, dPotentialCgs, fun _ v => v * 10 / cR⟩
def cgsResistance : EquivEntry :=
  ⟨dResistanceMks, dResistanceCgs, dResistanceCgs, fun _ v => v * 100 / cR ^ 2⟩

/-- Modelled from the spec: "CGS", the one-way SI -> cgs electromagnetic
equivalency, the inverse mapping of "SI". -/
def cgsEquiv : Equivalency := ⟨"CGS", .oneWay, [cgsCharge, cgsCurrent, cgsMagnetic, cgsPotential, cgsResistance]⟩

/-- Modelled from the spec: the process-wide equivalency registry, built
once and never mutated, in registration order. -/
def registry : List Equivalency :=
  [thermalEquiv, spectralEquiv, massEnergyEquiv, lorentzEquiv, schwarzschildEquiv,
   comptonEquiv, numberDensityEquiv, soundSpeedEquiv, siEquiv, cgsEquiv]

/-- Look an equivalency up by name in the registry. -/
def lookupEquiv (n : String) : Option Equivalency :=
  registry.find? (fun E => E.name == n)

/-- Find the directed entry of an equivalency for an ordered dimension
pair, if the pair is among its applicable pairs in that direction. -/
def findEntry (E : Equivalency) (a b : Dimension) : Option EquivEntry :=
  E.entries.find? (fun e => e.src == a && e.tgt == b)

/-- Modelled from the spec: a symbolic unit with its dimension and scale
factor to the canonical base-unit system. -/
structure Unit where
  sym : String
  dims : Dimension
  factor : ℝ

/-- Product of two units: symbols concatenate, dimensions multiply,
scale factors multiply. -/
def Unit.mulU (a b : Unit) : Unit :=
  ⟨a.sym ++ "*" ++ b.sym, a.dims.mul b.dims, a.factor * b.factor⟩

/-- Natural power of a unit. -/
def Unit.powU (a : Unit) (n : ℕ) : Unit :=
  ⟨a.sym ++ "^" ++ toString n, a.dims.qpow n, a.factor ^ n⟩

/-- Modelled from the spec: a quantity is a value paired with a unit;
immutable, every conversion produces a new quantity. -/
structure Quantity where
  val : ℝ
  unit : Unit

/-- Elementwise product of two quantities. -/
def Quantity.mulQ (a b : Quantity) : Quantity := ⟨a.val * b.val, a.unit.mulU b.unit⟩

/-- Natural power of a quantity. -/
def Quantity.powQ (a : Quantity) (n : ℕ) : Quantity := ⟨a.val ^ n, a.unit.powU n⟩

/-- Modelled from the spec: the typed error kinds of the conversion
engine; `invalidEquivalence` names the offending unit and the equivalence
attempted. -/
inductive ConvError where
  | dimensionMismatch (fromUnit toUnit : String)
  | unknownEquivalence (name : String)
  | invalidEquivalence (unitSym : String) (equivName : String)
  deriving DecidableEq

/-- Modelled from the spec: the conversion engine.  With no equivalence
name, require exactly equal dimensions and scale by the ratio of
base-unit scale factors; with an equivalence name, look it up, check the
ordered dimension pair is applicable in the correct direction, convert
the value to base units, apply the transform (with caller parameters
merged over the defaults) and re-express in the target unit. -/
def convert (q : Quantity) (u : Unit) (eqName : Option String) (ps : ParamInput) :
    Except ConvError Quantity :=
  match eqName with
  | none =>
      if q.unit.dims = u.dims then
        .ok ⟨q.val * (q.unit.factor / u.factor), u⟩
      else
        .error (.dimensionMismatch q.unit.sym u.sym)
  | some n =>
      match lookupEquiv n with
      | none => .error (.unknownEquivalence n)
      | some E =>
          match findEntry E q.unit.dims u.dims with
          | none => .error (.invalidEquivalence q.unit.sym n)
          | some e =>
              .ok ⟨e.fwd (mergeParams ps) (q.val * q.unit.factor) / u.factor, u⟩

/-- Modelled from the spec: true iff the unit's dimension appears as a
source among the named equivalency's applicable directed pairs (both
directions are listed for a bidirectional equivalency). -/
def has_equivalent (u : Unit) (n : String) : Bool :=
  match lookupEquiv n with
  | none => false
  | some E => E.entries.any (fun e => e.src == u.dims)

/-- Modelled from the spec: the registered equivalency names applicable
to the unit's dimension, in registration order, recomputed each call. -/
def list_equivalencies (u : Unit) : List String :=
  (registry.filter (fun E => E.entries.any (fun e => e.src == u.dims))).map (fun E => E.name)

/-- Modelled from the spec: `to_value` works like `in_units` (here
`convert`) except that it returns the bare numeric value with no unit
attached. -/
def to_value (q : Quantity) (u : Unit) (eqName : Option String) (ps : ParamInput) :
    Except ConvError ℝ :=
  (convert q u eqName ps).map Quantity.val

def angstrom : Unit := ⟨"angstrom", dLength, 1 / 10 ^ 8⟩
def kelvin : Unit := ⟨"K", dTemperature, 1⟩
def gram : Unit := ⟨"g", dMass, 1⟩
def erg : Unit := ⟨"erg", dEnergy, 1⟩
def eV : Unit := ⟨"eV", dEnergy, eVerg⟩
def GeV : Unit := ⟨"GeV", dEnergy, 10 ^ 9 * eVerg⟩
def km_s : Unit := ⟨"km/s", dVelocity, 10 ^ 5⟩
def c_unit : Unit := ⟨"c", dVelocity, cR⟩
def dimlessU : Unit := ⟨"dimensionless", dimensionless, 1⟩
def per_cm3 : Unit := ⟨"cm**-3", dNumberDensity, 1⟩
def g_cm3 : Unit := ⟨"g/cm**3", dDensity, 1⟩
def ampere : Unit := ⟨"A", dCurrentMks, 1⟩
def statA : Unit := ⟨"statA", dCurrentCgs, 1⟩
def coulomb : Unit := ⟨"C", dChargeMks, 1⟩
def esu : Unit := ⟨"esu", dChargeCgs, 1⟩
def ohmU : Unit := ⟨"ohm", dResistanceMks, 10 ^ 7⟩
def statohm : Unit := ⟨"statohm", dResistanceCgs, 1⟩
def watt : Unit := ⟨"W", dPower, 10 ^ 7⟩
def tesla : Unit := ⟨"T", dMagneticMks, 1000⟩
def gauss : Unit := ⟨"gauss", dMagneticCgs, 1⟩

/-- The proton-mass quantity, in grams. -/
def qmp : Quantity := ⟨mP, gram⟩

/-- The ordered dimension pairs bridged by the one-way "CGS" equivalency:
each is an (SI electromagnetic dimension, cgs electromagnetic dimension)
pair. -/
def cgsPairs : List (Dimension × Dimension) :=
  cgsEquiv.entries.map (fun e => (e.src, e.tgt))

/-- Round-trip property for the named equivalency between source
dimension `a` and target dimension `b`: converting a quantity (with
positive value and positive unit scale factors) to a unit of dimension
`b` and back under the same equivalence name reproduces it exactly.
`extra` is the additional domain condition on the source value expressed
in base units. -/
def RTC (n : String) (a b : Dimension) (extra : ℝ → Prop) : Prop :=
  ∀ (q : Quantity) (u : Unit), q.unit.dims = a → u.dims = b →
    0 < q.unit.factor → 0 < u.factor → 0 < q.val →
    extra (q.val * q.unit.factor) →
    ∃ g, convert q u (some n) pnone = .ok g ∧
      convert g q.unit (some n) pnone = .ok ⟨q.val, q.unit⟩

unseal Rat.add Rat.mul Rat.inv Rat.sub

lemma kB_pos : (0 : ℝ) < kB := by norm_num [kB]

lemma hP_pos : (0 : ℝ) < hP := by norm_num [hP]

lemma cR_pos : (0 : ℝ) < cR := by norm_num [cR]

lemma gG_pos : (0 : ℝ) < gG := by norm_num [gG]

lemma mP_pos : (0 : ℝ) < mP := by norm_num [mP]

lemma conv_equiv_ok (q : Quantity) (u : Unit) (n : String) (ps : ParamInput)
    (E : Equivalency) (e : EquivEntry)
    (hE : lookupEquiv n = some E) (he : findEntry E q.unit.dims u.dims = some e) :
    convert q u (some n) ps =
      .ok ⟨e.fwd (mergeParams ps) (q.val * q.unit.factor) / u.factor, u⟩ := by
  simp only [convert, hE, he]

lemma conv_equiv_unknown (q : Quantity) (u : Unit) (n : String) (ps : ParamInput)
    (hE : lookupEquiv n = none) :
    convert q u (some n) ps = .error (.unknownEquivalence n) := by
  simp only [convert, hE]

lemma conv_equiv_invalid (q : Quantity) (u : Unit) (n : String) (ps : ParamInput)
    (E : Equivalency)
    (hE : lookupEquiv n = some E) (he : findEntry E q.unit.dims u.dims = none) :
    convert q u (some n) ps = .error (.invalidEquivalence q.unit.sym n) := by
  simp only [convert, hE, he]

lemma conv_plain_ok (q : Quantity) (u : Unit) (ps : ParamInput)
    (hd : q.unit.dims = u.dims) :
    convert q u none ps = .ok ⟨q.val * (q.unit.factor / u.factor), u⟩ := by
  simp only [convert, if_pos hd]

lemma RTC_of (n : String) (E : Equivalency) (e1 e2 : EquivEntry) (a b : Dimension)
    (extra : ℝ → Prop) (hE : lookupEquiv n = some E)
    (h1 : findEntry E a b = some e1) (h2 : findEntry E b a = some e2)
    (hinv : ∀ v : ℝ, 0 < v → extra v →
      e2.fwd (mergeParams pnone) (e1.fwd (mergeParams pnone) v) = v) :
    RTC n a b extra := by
  intro q u hqa hub hf hg hv hx
  have hfn : q.unit.factor ≠ 0 := ne_of_gt hf
  have hgn : u.factor ≠ 0 := ne_of_gt hg
  refine ⟨⟨e1.fwd (mergeParams pnone) (q.val * q.unit.factor) / u.factor, u⟩, ?_, ?_⟩
  · exact conv_equiv_ok q u n pnone E e1 hE (by rw [hqa, hub]; exact h1)
  · have hstep := conv_equiv_ok
      ⟨e1.fwd (mergeParams pnone) (q.val * q.unit.factor) / u.factor, u⟩ q.unit n pnone E e2 hE
      (by show findEntry E u.dims q.unit.dims = some e2; rw [hub, hqa]; exact h2)
    rw [hstep]
    have hbase : e1.fwd (mergeParams pnone) (q.val * q.unit.factor) / u.factor * u.factor
        = e1.fwd (mergeParams pnone) (q.val * q.unit.factor) := div_mul_cancel₀ _ hgn
    show Except.ok _ = Except.ok _
    congr 1
    show (⟨_, q.unit⟩ : Quantity) = ⟨q.val, q.unit⟩
    congr 1
    show e2.fwd (mergeParams pnone) _ / q.unit.factor = q.val
    rw [hbase, hinv (q.val * q.unit.factor) (mul_pos hv hf) hx, mul_div_assoc,
      div_self hfn, mul_one]

lemma lorentz_inv_fwd (v : ℝ) (h0 : 0 < v) (hc : v < cR) :
    lorentz_inv (lorentz_fwd v) = v := by
  have hcpos : (0 : ℝ) < cR := cR_pos
  have hcn : cR ≠ 0 := ne_of_gt hcpos
  have hdiv : 0 < v / cR := div_pos h0 hcpos
  have hlt : v / cR < 1 := (div_lt_one hcpos).mpr hc
  have ht2 : (v / cR) ^ 2 < 1 := by nlinarith
  have hx : 0 < 1 - (v / cR) ^ 2 := by linarith
  unfold lorentz_inv lorentz_fwd
  have hsq : (1 / Real.sqrt (1 - (v / cR) ^ 2)) ^ 2 = 1 / (1 - (v / cR) ^ 2) := by
    rw [div_pow, one_pow, Real.sq_sqrt hx.le]
  rw [hsq, one_div_one_div]
  have harg : 1 - (1 - (v / cR) ^ 2) = (v / cR) ^ 2 := by ring
  rw [harg, Real.sqrt_sq hdiv.le, mul_comm, div_mul_cancel₀ v hcn]

lemma lorentz_fwd_inv (g : ℝ) (h1 : 1 ≤ g) :
    lorentz_fwd (lorentz_inv g) = g := by
  have hcn : cR ≠ 0 := ne_of_gt cR_pos
  have hg0 : (0 : ℝ) < g := lt_of_lt_of_le one_pos h1
  have hy0 : (0 : ℝ) ≤ 1 - 1 / g ^ 2 := by
    have hle : 1 / g ^ 2 ≤ 1 := by
      rw [div_le_one (by positivity)]
      nlinarith
    linarith
  unfold lorentz_fwd lorentz_inv
  rw [mul_comm, mul_div_assoc, div_self hcn, mul_one, Real.sq_sqrt hy0,
    show (1 : ℝ) - (1 - 1 / g ^ 2) = 1 / g ^ 2 from by ring,
    show (1 : ℝ) / g ^ 2 = (1 / g) ^ 2 from by rw [div_pow, one_pow],
    Real.sqrt_sq (by positivity), one_div_one_div]

lemma div_div_self_eq (c v : ℝ) (hc : c ≠ 0) (_hv : v ≠ 0) : c / (c / v) = v := by
  rw [div_div_eq_mul_div, mul_comm, mul_div_assoc, div_self hc, mul_one]

/-- Claim C1: if the ordered dimension pair of the source and target
units is not among the named equivalency's applicable dimension pairs in
the correct direction, `convert` fails with `invalidEquivalence`, and the
error names the offending unit and the equivalence attempted. -/
theorem convert_inapplicable_invalid (q : Quantity) (u : Unit) (n : String)
    (ps : ParamInput) (E : Equivalency) (hE : lookupEquiv n = some E)
    (h : ∀ e ∈ E.entries, ¬(e.src = q.unit.dims ∧ e.tgt = u.dims)) :
    convert q u (some n) ps = .error (.invalidEquivalence q.unit.sym n) := by
  apply conv_equiv_invalid q u n ps E hE
  apply List.find?_eq_none.mpr
  intro e he
  have hne := h e he
  simp only [Bool.and_eq_true, beq_iff_eq, not_and]
  intro h1 h2
  exact hne ⟨h1, h2⟩

/-- Witness for C1: converting a velocity quantity (1 km/s) to angstrom
under "spectral" fails with `invalidEquivalence` naming the unit and the
equivalence. -/
theorem convert_inapplicable_invalid_witness :
    convert ⟨1, km_s⟩ angstrom (some "spectral") pnone =
      .error (.invalidEquivalence "km/s" "spectral") :=
  convert_inapplicable_invalid ⟨1, km_s⟩ angstrom "spectral" pnone spectralEquiv
    rfl (by decide)

/-- Claim C2: for every quantity whose unit has an SI electromagnetic
dimension and every target unit of the corresponding cgs electromagnetic
dimension (an ordered pair the "CGS" equivalency bridges), converting
under the name "SI" fails with `invalidEquivalence`, while converting the
same pair under "CGS" succeeds. -/
theorem si_equivalence_one_way (q : Quantity) (u : Unit) (ps : ParamInput)
    (h : (q.unit.dims, u.dims) ∈ cgsPairs) :
    convert q u (some "SI") ps = .error (.invalidEquivalence q.unit.sym "SI") ∧
    ∃ q', convert q u (some "CGS") ps = .ok q' := by
  simp only [cgsPairs, cgsEquiv, cgsCharge, cgsCurrent, cgsMagnetic, cgsPotential,
    cgsResistance, List.map_cons, List.map_nil, List.mem_cons, List.not_mem_nil,
    or_false, Prod.mk.injEq] at h
  rcases h with ⟨ha, hb⟩ | ⟨ha, hb⟩ | ⟨ha, hb⟩ | ⟨ha, hb⟩ | ⟨ha, hb⟩
  · exact ⟨conv_equiv_invalid q u "SI" ps siEquiv rfl (by rw [ha, hb]; rfl),
      ⟨_, conv_equiv_ok q u "CGS" ps cgsEquiv cgsCharge rfl (by rw [ha, hb]; rfl)⟩⟩
  · exact ⟨conv_equiv_invalid q u "SI" ps siEquiv rfl (by rw [ha, hb]; rfl),
      ⟨_, conv_equiv_ok q u "CGS" ps cgsEquiv cgsCurrent rfl (by rw [ha, hb]; rfl)⟩⟩
  · exact ⟨conv_equiv_invalid q u "SI" ps siEquiv rfl (by rw [ha, hb]; rfl),
      ⟨_, conv_equiv_ok q u "CGS" ps cgsEquiv cgsMagnetic rfl (by rw [ha, hb]; rfl)⟩⟩
  · exact ⟨conv_equiv_invalid q u "SI" ps siEquiv rfl (by rw [ha, hb]; rfl),
      ⟨_, conv_equiv_ok q u "CGS" ps cgsEquiv cgsPotential rfl (by rw [ha, hb]; rfl)⟩⟩
  · exact ⟨conv_equiv_invalid q u "SI" ps siEquiv rfl (by rw [ha, hb]; rfl),
      ⟨_, conv_equiv_ok q u "CGS" ps cgsEquiv cgsResistance rfl (by rw [ha, hb]; rfl)⟩⟩

/-- Witness for C2: converting 1 tesla to gauss under "SI" fails with
`invalidEquivalence`, while the same conversion succeeds under "CGS". -/
theorem si_equivalence_one_way_witness :
    convert ⟨1, tesla⟩ gauss (some "SI") pnone =
      .error (.invalidEquivalence "T" "SI") ∧
    ∃ q', convert ⟨1, tesla⟩ gauss (some "CGS") pnone = .ok q' :=
  si_equivalence_one_way ⟨1, tesla⟩ gauss pnone (by decide)

/-- Claim C4: with no equivalence named, `convert` fails with
`dimensionMismatch` exactly when the two units' dimensions differ; when
they are equal it returns the value scaled by the ratio of the two
units' base-unit scale factors, expressed in the target unit. -/
theorem convert_plain_spec (q : Quantity) (u : Unit) (ps : ParamInput) :
    (convert q u none ps = .error (.dimensionMismatch q.unit.sym u.sym) ↔
      q.unit.dims ≠ u.dims) ∧
    (q.unit.dims = u.dims →
      convert q u none ps = .ok ⟨q.val * (q.unit.factor / u.factor), u⟩) := by
  constructor
  · by_cases hd : q.unit.dims = u.dims
    · simp [convert, hd]
    · simp [convert, hd]
  · intro hd
    exact conv_plain_ok q u ps hd

/-- Witness for C4: converting 2 erg to GeV (equal dimensions) succeeds
with the value scaled by the ratio of scale factors. -/
theorem convert_plain_spec_witness :
    convert ⟨2, erg⟩ GeV none pnone = .ok ⟨2 * (erg.factor / GeV.factor), GeV⟩ :=
  (convert_plain_spec ⟨2, erg⟩ GeV pnone).2 rfl

/-- Claim C5: dimension exactness.  (1) For every registered equivalency
and every declared applicable dimension pair, the dimension of the
transform's output (derived from its defining formula) equals the
declared target dimension exactly — a structural invariant of the
registry, checked once over the whole registry, not per call.  (2) The
entry `convert` uses always has exactly the requested source and target
dimensions.  (3) Hence every successful equivalency conversion produces a
quantity whose dimension equals the target unit's dimension. -/
theorem dimension_exactness :
    (∀ E ∈ registry, ∀ e ∈ E.entries, e.outDim = e.tgt) ∧
    (∀ (E : Equivalency) (a b : Dimension) (e : EquivEntry),
      findEntry E a b = some e → e.src = a ∧ e.tgt = b) ∧
    (∀ (q : Quantity) (u : Unit) (n : String) (ps : ParamInput) (q' : Quantity),
      convert q u (some n) ps = .ok q' → q'.unit.dims = u.dims) := by
  refine ⟨by decide, ?_, ?_⟩
  · intro E a b e h
    have hp := List.find?_some h
    simpa only [Bool.and_eq_true, beq_iff_eq] using hp
  · intro q u n ps q' h
    rcases hE : lookupEquiv n with _ | E
    · rw [conv_equiv_unknown q u n ps hE] at h
      exact absurd h (by simp)
    · rcases he : findEntry E q.unit.dims u.dims with _ | e
      · rw [conv_equiv_invalid q u n ps E hE he] at h
        exact absurd h (by simp)
      · rw [conv_equiv_ok q u n ps E e hE he] at h
        simp only [Except.ok.injEq] at h
        rw [← h]

/-- Witness for C5: the registry invariant at the "thermal" forward
entry; the entry found for the SI-current to cgs-current pair has those
dimensions; and a concrete successful conversion (1 K to erg under
"thermal") produces a quantity of the target unit's dimension. -/
theorem dimension_exactness_witness :
    thT2E.outDim = thT2E.tgt ∧
    (cgsCurrent.src = dCurrentMks ∧ cgsCurrent.tgt = dCurrentCgs) ∧
    (⟨kB * (1 * kelvin.factor) / erg.factor, erg⟩ : Quantity).unit.dims = erg.dims :=
  ⟨dimension_exactness.1 thermalEquiv (by simp [registry]) thT2E (by simp [thermalEquiv]),
   dimension_exactness.2.1 cgsEquiv dCurrentMks dCurrentCgs cgsCurrent rfl,
   dimension_exactness.2.2 ⟨1, kelvin⟩ erg "thermal" pnone _ rfl⟩

/-- Claim C6: omitted equivalency parameters take their documented
defaults: "number_density" with no parameters equals "number_density"
with mu = 0.6 explicitly supplied, and "sound_speed" with no parameters
equals "sound_speed" with mu = 0.6 and gamma = 5/3 supplied. -/
theorem parameter_defaults (q : Quantity) (u : Unit) :
    convert q u (some "number_density") ⟨none, none⟩ =
      convert q u (some "number_density") ⟨some (3/5), none⟩ ∧
    convert q u (some "sound_speed") ⟨none, none⟩ =
      convert q u (some "sound_speed") ⟨some (3/5), some (5/3)⟩ :=
  ⟨rfl, rfl⟩

/-- Claim C7: `has_equivalent` is true iff the unit's dimension appears
as a source among the named equivalency's applicable directed pairs
(both directions are listed for a bidirectional equivalency); in
particular it holds for the proton-mass quantity with "compton" and
fails with "thermal". -/
theorem has_equivalent_spec :
    (∀ (u : Unit) (n : String), has_equivalent u n = true ↔
      ∃ E, lookupEquiv n = some E ∧ ∃ e ∈ E.entries, e.src = u.dims) ∧
    has_equivalent qmp.unit "compton" = true ∧
    has_equivalent qmp.unit "thermal" = false := by
  refine ⟨?_, rfl, rfl⟩
  intro u n
  unfold has_equivalent
  rcases hE : lookupEquiv n with _ | E
  · simp
  · simp [List.any_eq_true, beq_iff_eq]

/-- Claim C9: whenever `convert` succeeds, `to_value` returns the bare
numeric value of the converted quantity, with no unit attached:
`to_value` is the value projection of the conversion. -/
theorem to_value_projection (q : Quantity) (u : Unit) (en : Option String)
    (ps : ParamInput) (q' : Quantity) (h : convert q u en ps = .ok q') :
    to_value q u en ps = .ok q'.val := by
  unfold to_value
  rw [h]
  rfl

/-- Witness for C9: a concrete conversion (2 erg to erg) and its
value projection. -/
theorem to_value_projection_witness :
    to_value ⟨2, erg⟩ erg none pnone =
      .ok ((⟨2 * (erg.factor / erg.factor), erg⟩ : Quantity).val) :=
  to_value_projection ⟨2, erg⟩ erg none pnone ⟨2 * (erg.factor / erg.factor), erg⟩ rfl

/-- Claim C10: for every velocity strictly below the speed of light in
absolute value, the forward "lorentz" transform is well-defined:
1 - (v/c)^2 is strictly positive, the square root taken is of a positive
number and is itself positive (so no division by zero occurs), and the
guarded transform takes its ok branch — the error branch is unreachable
under this precondition. -/
theorem lorentz_forward_safe (v : ℝ) (h : |v| < cR) :
    0 < 1 - (v / cR) ^ 2 ∧ 0 < Real.sqrt (1 - (v / cR) ^ 2) ∧
    lorentz_fwd_checked v = .ok (lorentz_fwd v) := by
  have hc : (0 : ℝ) < cR := cR_pos
  have h2 : (v / cR) ^ 2 < 1 := by
    rw [div_pow, div_lt_one (by positivity)]
    nlinarith [abs_nonneg v, sq_abs v]
  have hpos : 0 < 1 - (v / cR) ^ 2 := by linarith
  refine ⟨hpos, Real.sqrt_pos.mpr hpos, ?_⟩
  unfold lorentz_fwd_checked
  rw [if_pos hpos]

/-- Witness for C10: the guard holds at v = 1 cm/s. -/
theorem lorentz_forward_safe_witness :
    0 < 1 - ((1 : ℝ) / cR) ^ 2 ∧ 0 < Real.sqrt (1 - ((1 : ℝ) / cR) ^ 2) ∧
    lorentz_fwd_checked 1 = .ok (lorentz_fwd 1) :=
  lorentz_forward_safe 1 (by rw [abs_one]; norm_num [cR])

/-- Claim C3 (amended): for every bidirectional equivalency and every
directed applicable dimension pair, converting a quantity to a unit of
the paired dimension and back under the same equivalence name reproduces
it exactly, provided the quantity's value and the unit scale factors are
strictly positive and the value lies in the transform's domain (below c
for "lorentz" velocities; at least 1 for Lorentz factors).  The original
claim, for every quantity of an accepted source dimension, is false: see
the counterexample at a negative velocity. -/
theorem roundtrip_amended_positive :
    RTC "thermal" dTemperature dEnergy (fun _ => True) ∧
    RTC "thermal" dEnergy dTemperature (fun _ => True) ∧
    RTC "spectral" dLength dRate (fun _ => True) ∧
    RTC "spectral" dRate dLength (fun _ => True) ∧
    RTC "spectral" dLength dEnergy (fun _ => True) ∧
    RTC "spectral" dEnergy dLength (fun _ => True) ∧
    RTC "spectral" dRate dEnergy (fun _ => True) ∧
    RTC "spectral" dEnergy dRate (fun _ => True) ∧
    RTC "mass_energy" dMass dEnergy (fun _ => True) ∧
    RTC "mass_energy" dEnergy dMass (fun _ => True) ∧
    RTC "lorentz" dVelocity dimensionless (fun v => v < cR) ∧
    RTC "lorentz" dimensionless dVelocity (fun g => 1 ≤ g) ∧
    RTC "schwarzschild" dMass dLength (fun _ => True) ∧
    RTC "schwarzschild" dLength dMass (fun _ => True) ∧
    RTC "compton" dMass dLength (fun _ => True) ∧
    RTC "compton" dLength dMass (fun _ => True) ∧
    RTC "number_density" dDensity dNumberDensity (fun _ => True) ∧
    RTC "number_density" dNumberDensity dDensity (fun _ => True) ∧
    RTC "sound_speed" dTemperature dVelocity (fun _ => True) ∧
    RTC "sound_speed" dVelocity dTemperature (fun _ => True) := by
  have hkn : kB ≠ 0 := ne_of_gt kB_pos
  have hhn : hP ≠ 0 := ne_of_gt hP_pos
  have hcn : cR ≠ 0 := ne_of_gt cR_pos
  have hgn : gG ≠ 0 := ne_of_gt gG_pos
  have hmn : mP ≠ 0 := ne_of_gt mP_pos
  refine ⟨?_, ?_, ?_, ?_, ?_, ?_, ?_, ?_, ?_, ?_, ?_, ?_, ?_, ?_, ?_, ?_, ?_, ?_, ?_, ?_⟩
  · refine RTC_of _ thermalEquiv thT2E thE2T _ _ _ rfl rfl rfl ?_
    intro v hv _
    simp only [thT2E, thE2T]
    exact mul_div_cancel_left₀ v hkn
  · refine RTC_of _ thermalEquiv thE2T thT2E _ _ _ rfl rfl rfl ?_
    intro v hv _
    simp only [thT2E, thE2T]
    rw [mul_comm]
    exact div_mul_cancel₀ v hkn
  · refine RTC_of _ spectralEquiv spL2F spF2L _ _ _ rfl rfl rfl ?_
    intro v hv _
    simp only [spL2F, spF2L]
    exact div_div_self_eq cR v hcn (ne_of_gt hv)
  · refine RTC_of _ spectralEquiv spF2L spL2F _ _ _ rfl rfl rfl ?_
    intro v hv _
    simp only [spL2F, spF2L]
    exact div_div_self_eq cR v hcn (ne_of_gt hv)
  · refine RTC_of _ spectralEquiv spL2E spE2L _ _ _ rfl rfl rfl ?_
    intro v hv _
    simp only [spL2E, spE2L]
    exact div_div_self_eq (hP * cR) v (mul_ne_zero hhn hcn) (ne_of_gt hv)
  · refine RTC_of _ spectralEquiv spE2L spL2E _ _ _ rfl rfl rfl ?_
    intro v hv _
    simp only [spL2E, spE2L]
    exact div_div_self_eq (hP * cR) v (mul_ne_zero hhn hcn) (ne_of_gt hv)
  · refine RTC_of _ spectralEquiv spF2E spE2F _ _ _ rfl rfl rfl ?_
    intro v hv _
    simp only [spF2E, spE2F]
    exact mul_div_cancel_left₀ v hhn
  · refine RTC_of _ spectralEquiv spE2F spF2E _ _ _ rfl rfl rfl ?_
    intro v hv _
    simp only [spF2E, spE2F]
    rw [mul_comm]
    exact div_mul_cancel₀ v hhn
  · refine RTC_of _ massEnergyEquiv meM2E meE2M _ _ _ rfl rfl rfl ?_
    intro v hv _
    simp only [meM2E, meE2M]
    exact mul_div_cancel_right₀ v (pow_ne_zero 2 hcn)
  · refine RTC_of _ massEnergyEquiv meE2M meM2E _ _ _ rfl rfl rfl ?_
    intro v hv _
    simp only [meM2E, meE2M]
    exact div_mul_cancel₀ v (pow_ne_zero 2 hcn)
  · refine RTC_of _ lorentzEquiv loV2G loG2V _ _ _ rfl rfl rfl ?_
    intro v hv hx
    simp only [loV2G, loG2V]
    exact lorentz_inv_fwd v hv hx
  · refine RTC_of _ lorentzEquiv loG2V loV2G _ _ _ rfl rfl rfl ?_
    intro v hv hx
    simp only [loV2G, loG2V]
    exact lorentz_fwd_inv v hx
  · refine RTC_of _ schwarzschildEquiv scM2R scR2M _ _ _ rfl rfl rfl ?_
    intro v hv _
    simp only [scM2R, scR2M]
    field_simp
  · refine RTC_of _ schwarzschildEquiv scR2M scM2R _ _ _ rfl rfl rfl ?_
    intro v hv _
    simp only [scM2R, scR2M]
    field_simp
  · refine RTC_of _ comptonEquiv cpM2L cpL2M _ _ _ rfl rfl rfl ?_
    intro v hv _
    have hvn : v ≠ 0 := ne_of_gt hv
    simp only [cpM2L, cpL2M]
    field_simp
    ring
  · refine RTC_of _ comptonEquiv cpL2M cpM2L _ _ _ rfl rfl rfl ?_
    intro v hv _
    have hvn : v ≠ 0 := ne_of_gt hv
    simp only [cpM2L, cpL2M]
    field_simp
    ring
  · refine RTC_of _ numberDensityEquiv ndD2N ndN2D _ _ _ rfl rfl rfl ?_
    intro v hv _
    simp only [ndD2N, ndN2D, mergeParams, pnone, Option.getD]
    exact div_mul_cancel₀ v (mul_ne_zero (by norm_num) hmn)
  · refine RTC_of _ numberDensityEquiv ndN2D ndD2N _ _ _ rfl rfl rfl ?_
    intro v hv _
    simp only [ndD2N, ndN2D, mergeParams, pnone, Option.getD]
    exact mul_div_cancel_right₀ v (mul_ne_zero (by norm_num) hmn)
  · refine RTC_of _ soundSpeedEquiv ssT2V ssV2T _ _ _ rfl rfl rfl ?_
    intro v hv _
    simp only [ssT2V, ssV2T, mergeParams, pnone, Option.getD]
    rw [Real.sq_sqrt (by rw [kB, mP]; positivity)]
    field_simp
    ring
  · refine RTC_of _ soundSpeedEquiv ssV2T ssT2V _ _ _ rfl rfl rfl ?_
    intro v hv _
    simp only [ssT2V, ssV2T, mergeParams, pnone, Option.getD]
    rw [show (5 : ℝ)/3 * kB * (3/5 * mP * v ^ 2 / (5/3 * kB)) / (3/5 * mP) = v ^ 2 from by
      field_simp; ring]
    exact Real.sqrt_sq hv.le

/-- Counterexample for C3 as stated: under the bidirectional "lorentz"
equivalency, a velocity quantity of value -(3/5) c (whose dimension the
equivalency accepts as a source) converts to Lorentz factor 5/4, and
converting back yields +(3/5) c, not the original value: the round trip
does not reproduce the quantity. -/
theorem lorentz_roundtrip_counterexample :
    convert ⟨-(3/5), c_unit⟩ dimlessU (some "lorentz") pnone = .ok ⟨(5/4 : ℝ), dimlessU⟩ ∧
    convert ⟨(5/4 : ℝ), dimlessU⟩ c_unit (some "lorentz") pnone = .ok ⟨(3/5 : ℝ), c_unit⟩ ∧
    (3/5 : ℝ) ≠ -(3/5) := by
  have hcn : cR ≠ 0 := ne_of_gt cR_pos
  refine ⟨?_, ?_, by norm_num⟩
  · rw [conv_equiv_ok ⟨-(3/5), c_unit⟩ dimlessU "lorentz" pnone lorentzEquiv loV2G rfl rfl]
    show Except.ok (⟨lorentz_fwd (-(3/5) * cR) / 1, dimlessU⟩ : Quantity) = _
    simp only [Except.ok.injEq, Quantity.mk.injEq, and_true]
    rw [div_one]
    unfold lorentz_fwd
    rw [show (-(3/5) * cR) / cR = -(3/5 : ℝ) from by
        rw [mul_div_assoc, div_self hcn, mul_one],
      show (1 : ℝ) - (-(3/5)) ^ 2 = (4/5) ^ 2 from by norm_num,
      Real.sqrt_sq (by norm_num : (0:ℝ) ≤ 4/5)]
    norm_num
  · rw [conv_equiv_ok ⟨(5/4 : ℝ), dimlessU⟩ c_unit "lorentz" pnone lorentzEquiv loG2V rfl rfl]
    show Except.ok (⟨lorentz_inv (5/4 * 1) / cR, c_unit⟩ : Quantity) = _
    simp only [Except.ok.injEq, Quantity.mk.injEq, and_true]
    rw [mul_one]
    unfold lorentz_inv
    rw [show (1 : ℝ) - 1 / (5/4 : ℝ) ^ 2 = (3/5) ^ 2 from by norm_num,
      Real.sqrt_sq (by norm_num : (0:ℝ) ≤ 3/5),
      mul_comm, mul_div_assoc, div_self hcn, mul_one]

/-- Witness for the amended C3: 1 kelvin converts to erg under "thermal"
and back to exactly 1 kelvin. -/
theorem roundtrip_amended_positive_witness :
    ∃ g, convert ⟨1, kelvin⟩ erg (some "thermal") pnone = .ok g ∧
      convert g kelvin (some "thermal") pnone = .ok ⟨1, kelvin⟩ :=
  roundtrip_amended_positive.1 ⟨1, kelvin⟩ erg rfl rfl (by norm_num [kelvin])
    (by norm_num [erg]) one_pos trivial

/-- Claim C8: Joule-heating identity.  Current I = 1 A converts under
"CGS" to statamperes and resistance R = 1 ohm converts under "CGS" to
statohms; the power I^2 * R formed in SI units and in the converted cgs
units has equal dimensions in both systems, and each, re-expressed in
watts with a plain conversion, has value exactly 1 W, so the two values
agree. -/
theorem joule_heating_identity :
    ∃ Ic Rc : Quantity,
      convert ⟨1, ampere⟩ statA (some "CGS") pnone = .ok Ic ∧
      convert ⟨1, ohmU⟩ statohm (some "CGS") pnone = .ok Rc ∧
      ((Ic.powQ 2).mulQ Rc).unit.dims =
        (((⟨1, ampere⟩ : Quantity).powQ 2).mulQ ⟨1, ohmU⟩).unit.dims ∧
      ∃ w1 w2 : Quantity,
        convert (((⟨1, ampere⟩ : Quantity).powQ 2).mulQ ⟨1, ohmU⟩) watt none pnone = .ok w1 ∧
        convert ((Ic.powQ 2).mulQ Rc) watt none pnone = .ok w2 ∧
        w1.val = 1 ∧ w2.val = 1 ∧ w1.unit = w2.unit := by
  refine ⟨⟨2997924580, statA⟩, ⟨10 ^ 9 / 898755178736817640000, statohm⟩,
    ?_, ?_, by decide, ?_⟩
  · rw [conv_equiv_ok ⟨1, ampere⟩ statA "CGS" pnone cgsEquiv cgsCurrent rfl rfl]
    simp only [cgsCurrent, Except.ok.injEq, Quantity.mk.injEq, and_true]
    norm_num [ampere, statA, cR]
  · rw [conv_equiv_ok ⟨1, ohmU⟩ statohm "CGS" pnone cgsEquiv cgsResistance rfl rfl]
    simp only [cgsResistance, Except.ok.injEq, Quantity.mk.injEq, and_true]
    norm_num [ohmU, statohm, cR]
  · refine ⟨_, _, conv_plain_ok _ watt pnone (by decide),
      conv_plain_ok _ watt pnone (by decide), ?_, ?_, rfl⟩
    · simp only [Quantity.powQ, Quantity.mulQ, Unit.powU, Unit.mulU, ampere, ohmU, watt]
      norm_num
    · simp only [Quantity.powQ, Quantity.mulQ, Unit.powU, Unit.mulU, statA, statohm, watt]
      norm_num

end

end Yt
